import Mathlib

/-!
Verification of the dual-access `State` container
(`src/cmmc/entities/state.py`) and of the newline-delimited JSON loaders
(`src/cmmc/file_tools.py`, `src/mypy/pandas_tools.py`).

Modelling choices:

* A Python `dict` is an insertion-ordered association list from `String`
  keys to values of an opaque type `V`.  Setting an existing key updates
  its value in place (keeping its position); setting a fresh key appends.
  Two dicts compare equal exactly when they map the same keys to equal
  values, irrespective of insertion order, as Python dict equality does.
* Because several claims are about aliasing (shallow copy in `__init__`,
  the live view returned by `as_dict`), dict objects live in an explicit
  heap: an address is a `Nat`, and a `State` object holds the address of
  its backing dict in its `_data` slot, exactly as the Python instance
  attribute `_data` holds a reference to a dict object.
* `object.__setattr__` routing for names starting with `_` is modelled by
  the `attrs` field: the rest of the instance `__dict__` beside `_data`.
  Assignment to the reserved name `_data` itself rebinds the
  backing-storage slot; `State.setAttrData` models this for a dict-valued
  assignment, after which every storage operation of the container reads
  the assigned dict.  Rebinding `_data` to a non-dict value leaves a dead
  container whose every later storage operation raises `TypeError`; that
  dead state has no representative in the typed model (`setAttr` keeps
  the old storage reference there), so every theorem about private-name
  assignment either excludes the reserved name or goes through
  `setAttrData`.
* Exceptions (`KeyError`, `AttributeError`) are `Except` errors.
-/

set_option autoImplicit false

universe u

variable {V : Type}

/-- A Python dict with `String` keys: an insertion-ordered association list. -/
abbrev Dict (V : Type) := List (String × V)

/-- `d[k]` lookup: the value at the first (only) entry with key `k`. -/
def dictGet : Dict V → String → Option V
  | [], _ => none
  | (k', v) :: rest, k => if k' = k then some v else dictGet rest k

/-- `d[k] = v`: update the entry in place if the key is present (keeping its
position), otherwise append the new entry at the end, as Python dicts do. -/
def dictSet : Dict V → String → V → Dict V
  | [], k, v => [(k, v)]
  | (k', v') :: rest, k, v =>
    if k' = k then (k, v) :: rest else (k', v') :: dictSet rest k v

/-- `del d[k]`: remove the entry with key `k`; `none` models `KeyError`. -/
def dictDel : Dict V → String → Option (Dict V)
  | [], _ => none
  | (k', v') :: rest, k =>
    if k' = k then some rest else (dictDel rest k).map (fun d => (k', v') :: d)

/-- `list(d)`: the keys in insertion order. -/
def dictKeys (d : Dict V) : List String :=
  d.map Prod.fst

/-- The well-formedness every real Python dict enjoys: no duplicate keys. -/
def nodupKeys (d : Dict V) : Prop :=
  (dictKeys d).Nodup

/-- Python dict equality `d1 == d2`: same keys mapped to equal values,
irrespective of insertion order. -/
def dictBeq [DecidableEq V] (d1 d2 : Dict V) : Bool :=
  d1.all (fun kv => decide (dictGet d2 kv.1 = some kv.2)) &&
    d2.all (fun kv => decide (dictGet d1 kv.1 = some kv.2))

/-- The heap of dict objects: Python variables hold references (addresses)
to dicts, and `dict(x)` allocates a fresh dict object. -/
structure Heap (V : Type) where
  mem : Nat → Dict V
  next : Nat

/-- The empty heap. -/
def Heap.empty {V : Type} : Heap V :=
  { mem := fun _ => [], next := 0 }

/-- Dereference a dict address. -/
def Heap.read (h : Heap V) (a : Nat) : Dict V :=
  h.mem a

/-- Mutate the dict object at an address. -/
def Heap.write (h : Heap V) (a : Nat) (d : Dict V) : Heap V :=
  { mem := fun i => if i = a then d else h.mem i, next := h.next }

/-- Allocate a fresh dict object; returns the new heap and its address. -/
def Heap.alloc (h : Heap V) (d : Dict V) : Heap V × Nat :=
  ({ mem := fun i => if i = h.next then d else h.mem i, next := h.next + 1 },
    h.next)

/-- Python `name.startswith("_")`: the name begins with the private
marker, the single underscore character. -/
def isPrivateName (s : String) : Bool :=
  match s.data with
  | [] => false
  | c :: _ => c == '_'

/-- The two error shapes of the container: `KeyError` raised by indexed
access and deletion, and `AttributeError` (carrying the attempted name)
raised by named access. -/
inductive PyErr where
  | missingKey (key : String)
  | missingAttr (name : String)
  deriving DecidableEq, Repr

/-- A `State` object: the instance `__dict__`.  `_data` is the address of
the backing dict object (installed by `__init__` via `object.__setattr__`);
`attrs` are the other instance attributes, which only `__setattr__` with a
`_`-prefixed name ever installs. -/
structure State (V : Type) where
  _data : Nat
  attrs : Dict V
  deriving Repr

/-- The public callables reachable as class attributes of `State`: the
methods defined in the class body plus the concrete mixins inherited from
`collections.abc.MutableMapping`.  Ordinary attribute lookup finds these
before `__getattr__` is ever consulted.  (Dunder names, which also resolve
on the class, all start with `_` and are handled by the theorems via the
private-marker hypotheses.) -/
def classAttrNames : List String :=
  ["as_dict", "get", "items", "keys", "values",
   "pop", "popitem", "clear", "update", "setdefault"]

/-- What Python attribute lookup on a `State` instance can produce. -/
inductive PyAttr (V : Type) where
  /-- The `_data` instance attribute: a reference to the backing dict. -/
  | dataRef (a : Nat)
  /-- Another instance attribute (installed by private-name assignment). -/
  | instAttr (v : V)
  /-- A bound method found on the class. -/
  | classMethod (name : String)
  /-- A user value resolved by the `__getattr__` hook from the backing dict. -/
  | stored (v : V)
  deriving DecidableEq, Repr

/-- `State.__init__`: `object.__setattr__(self, "_data", dict(initial) if initial else {})`.
`initial` is `none` for the default `None` argument, or the address of the
caller's dict.  A falsy (empty) source also yields `{}`; either way a fresh
dict object is allocated, copying the source's entries by reference. -/
def State.init (h : Heap V) (initial : Option Nat) : Heap V × State V :=
  let d : Dict V :=
    match initial with
    | none => []
    | some src => if (h.read src).isEmpty then [] else h.read src
  let p := h.alloc d
  (p.1, { _data := p.2, attrs := [] })

/-- `State.__contains__`: `key in self._data`. -/
def State.contains (h : Heap V) (s : State V) (key : String) : Bool :=
  (dictGet (h.read s._data) key).isSome

/-- `State.__getitem__`: `self._data[key]`, raising `KeyError` when absent. -/
def State.getItem (h : Heap V) (s : State V) (key : String) : Except PyErr V :=
  match dictGet (h.read s._data) key with
  | some v => .ok v
  | none => .error (.missingKey key)

/-- `State.__setitem__`: `self._data[key] = value`, mutating the backing
dict object in the heap. -/
def State.setItem (h : Heap V) (s : State V) (key : String) (value : V) : Heap V :=
  h.write s._data (dictSet (h.read s._data) key value)

/-- `State.__delitem__`: `del self._data[key]`, raising `KeyError` when
absent. -/
def State.delItem (h : Heap V) (s : State V) (key : String) : Except PyErr (Heap V) :=
  match dictDel (h.read s._data) key with
  | some d => .ok (h.write s._data d)
  | none => .error (.missingKey key)

/-- Python attribute access `s.name`: ordinary lookup first consults the
instance `__dict__` (`_data` and any private attributes), then the class
attributes; only when both fail is the `__getattr__` hook called, which
reads `self._data[name]` and turns `KeyError` into
`AttributeError("'State' object has no attribute '<name>'")`. -/
def State.getAttr (h : Heap V) (s : State V) (name : String) : Except PyErr (PyAttr V) :=
  if name = "_data" then .ok (.dataRef s._data)
  else
    match dictGet s.attrs name with
    | some v => .ok (.instAttr v)
    | none =>
      if name ∈ classAttrNames then .ok (.classMethod name)
      else
        match dictGet (h.read s._data) name with
        | some v => .ok (.stored v)
        | none => .error (.missingAttr name)

/-- `State.__setattr__` with an opaque (non-dict) value: names starting
with `_` are routed to the instance attribute store via
`object.__setattr__`; every other name is written through to the backing
dict (`self._data[key] = value`).  At the reserved name `_data` Python
rebinds the storage slot to the non-dict value, leaving a dead container
that raises `TypeError` on every later storage operation; that dead state
is unrepresentable here (the model keeps the old storage reference), so
theorems about private-name assignment exclude the reserved name, whose
faithful dict-valued form is `State.setAttrData` below. -/
def State.setAttr (h : Heap V) (s : State V) (key : String) (value : V) :
    Heap V × State V :=
  if isPrivateName key then (h, { s with attrs := dictSet s.attrs key value })
  else (h.write s._data (dictSet (h.read s._data) key value), s)

/-- `State.__setattr__` at the reserved name with a dict-valued right-hand
side: `self._data = value` executes `object.__setattr__(self, "_data", value)`,
which rebinds the backing-storage slot.  The assigned dict object is given
by its heap address; afterwards every storage operation of the container
reads and writes that dict. -/
def State.setAttrData (h : Heap V) (s : State V) (a : Nat) :
    Heap V × State V :=
  (h, { s with _data := a })

/-- `State.__iter__`: `iter(self._data)` yields the keys in insertion
order; the model returns the whole (finite) key sequence. -/
def State.iterKeys (h : Heap V) (s : State V) : List String :=
  dictKeys (h.read s._data)

/-- `State.__len__`: `len(self._data)`. -/
def State.len (h : Heap V) (s : State V) : Nat :=
  (h.read s._data).length

/-- `State.__eq__` against another `State`: `self._data == other._data`. -/
def State.eqState [DecidableEq V] (h : Heap V) (s other : State V) : Bool :=
  dictBeq (h.read s._data) (h.read other._data)

/-- `State.__eq__` against a plain dict: `self._data == other`. -/
def State.eqDict [DecidableEq V] (h : Heap V) (s : State V) (other : Dict V) : Bool :=
  dictBeq (h.read s._data) other

/-- `State.as_dict`: `return self._data` — the reference to the live
backing dict object, not a copy of it. -/
def State.asDict (s : State V) : Nat :=
  s._data

/-- `State.get`: `self._data.get(key, default)`. -/
def State.getD (h : Heap V) (s : State V) (key : String) (default : V) : V :=
  (dictGet (h.read s._data) key).getD default

/-- `State.keys`: `self._data.keys()`. -/
def State.keysView (h : Heap V) (s : State V) : List String :=
  dictKeys (h.read s._data)

/-- `State.values`: `self._data.values()`. -/
def State.valuesView (h : Heap V) (s : State V) : List V :=
  (h.read s._data).map Prod.snd

/-- `State.items`: `self._data.items()`. -/
def State.itemsView (h : Heap V) (s : State V) : Dict V :=
  h.read s._data

/-- One mutating operation on a `State` container. -/
inductive Op (V : Type) where
  | setKey (key : String) (value : V)
  | setName (name : String) (value : V)
  | delKey (key : String)
  deriving Repr

/-- Run one operation; a raised `KeyError` propagates. -/
def applyOp (h : Heap V) (s : State V) : Op V → Except PyErr (Heap V × State V)
  | .setKey k v => .ok (State.setItem h s k v, s)
  | .setName n v => .ok (State.setAttr h s n v)
  | .delKey k => (State.delItem h s k).map (fun h2 => (h2, s))

/-- Run a sequence of operations; the first raised error aborts the run. -/
def applyOps (h : Heap V) (s : State V) : List (Op V) → Except PyErr (Heap V × State V)
  | [] => .ok (h, s)
  | op :: ops =>
    match applyOp h s op with
    | .ok p => applyOps p.1 p.2 ops
    | .error e => .error e

/-- Observer: `len(state)` after a run. -/
def runLen (h : Heap V) (s : State V) (ops : List (Op V)) : Except PyErr Nat :=
  (applyOps h s ops).map (fun p => State.len p.1 p.2)

/-- Observer: the number of distinct keys in the backing dict after a run. -/
def runDistinctKeyCount (h : Heap V) (s : State V) (ops : List (Op V)) :
    Except PyErr Nat :=
  (applyOps h s ops).map (fun p => (dictKeys (p.1.read p.2._data)).toFinset.card)

/-- Observer: the iteration order of `state` after a run. -/
def runKeys (h : Heap V) (s : State V) (ops : List (Op V)) :
    Except PyErr (List String) :=
  (applyOps h s ops).map (fun p => State.iterKeys p.1 p.2)

/-!  The newline-delimited JSON loaders.  File reading and `json.loads`
are abstracted into an environment: `readLines` maps a path and an
encoding to the lines of the file (or an I/O error), and `loads` parses
one line into a JSON value of the opaque type `J` (or raises). -/

/-- The I/O environment of the loaders. -/
structure FileEnv (J : Type) where
  readLines : String → String → Except String (List String)
  loads : String → Except String J

/-- A Python return value that is either `None` or a list: the type of
what `load_jsonl` actually returns versus what its docstring promises. -/
inductive PyValue (J : Type) where
  | none
  | list (xs : List J)
  deriving Repr

/-- `cmmc.file_tools.load_ndjson`: read all lines, then
`[json.loads(line.strip()) for line in lines]`. -/
def load_ndjson {J : Type} (env : FileEnv J) (file_path : String)
    (encoding : String) : Except String (List J) := do
  let lines ← env.readLines file_path encoding
  lines.mapM (fun line => env.loads line.trim)

/-- `cmmc.file_tools.load_jsonl`: calls `load_ndjson(file_path, encoding)`
but has no `return` statement, so a normal exit returns `None`. -/
def load_jsonl {J : Type} (env : FileEnv J) (file_path : String)
    (encoding : String) : Except String (PyValue J) := do
  let _ ← load_ndjson env file_path encoding
  pure PyValue.none

/-- `mypy.pandas_tools.load_ndjson`: the identical copy of the loader. -/
def pandas_load_ndjson {J : Type} (env : FileEnv J) (file_path : String)
    (encoding : String) : Except String (List J) := do
  let lines ← env.readLines file_path encoding
  lines.mapM (fun line => env.loads line.trim)

/-- `mypy.pandas_tools.load_jsonl`: calls `load_ndjson(file_path)` (with
the default encoding `"utf-8"`) and likewise returns `None`. -/
def pandas_load_jsonl {J : Type} (env : FileEnv J) (file_path : String) :
    Except String (PyValue J) := do
  let _ ← pandas_load_ndjson env file_path "utf-8"
  pure PyValue.none

/-- The specification of `State.__eq__` as amended: equality with another
`State` and with a plain dict is value equality of the backing storages;
two containers separately constructed from equal seed dicts are equal; a
content-changing mutation of one of two equal containers (setting a fresh
key, overwriting a key with a different value, or deleting a key) makes
them unequal. -/
def eqSpecHolds [DecidableEq V] (h : Heap V) (s1 s2 : State V) (k : String)
    (v : V) : Prop :=
  (State.eqState h s1 s2 = true ↔
    ∀ k2, dictGet (h.read s1._data) k2 = dictGet (h.read s2._data) k2) ∧
  (∀ d, nodupKeys d →
    (State.eqDict h s1 d = true ↔
      ∀ k2, dictGet (h.read s1._data) k2 = dictGet d k2)) ∧
  (∀ src1 src2, src1 < h.next → src2 < h.next →
    h.read src1 = h.read src2 → nodupKeys (h.read src1) →
    State.eqState (State.init (State.init h (some src1)).1 (some src2)).1
      (State.init h (some src1)).2
      (State.init (State.init h (some src1)).1 (some src2)).2 = true) ∧
  (dictGet (h.read s1._data) k = none → State.eqState h s1 s2 = true →
    State.eqState (State.setItem h s1 k v) s1 s2 = false) ∧
  (∀ w, dictGet (h.read s1._data) k = some w → w ≠ v →
    State.eqState h s1 s2 = true →
    State.eqState (State.setItem h s1 k v) s1 s2 = false) ∧
  (∀ h2, State.delItem h s1 k = .ok h2 → State.eqState h s1 s2 = true →
    State.eqState h2 s1 s2 = false)

/-- A concrete scenario over `Nat` values: two separately constructed
`State` objects, each subsequently assigned `"a" := 1` by indexed access.
The heap component is the heap after those four steps. -/
def eqScenario : Heap Nat × State Nat × State Nat :=
  let p1 := State.init (Heap.empty (V := Nat)) none
  let p2 := State.init p1.1 none
  (State.setItem (State.setItem p2.1 p1.2 "a" 1) p2.2 "a" 1, p1.2, p2.2)

/-- A freshly constructed empty container (`State()`) over an empty heap. -/
def freshState : Heap Nat × State Nat :=
  State.init (Heap.empty (V := Nat)) none

/-- A heap holding one caller-owned dict `{"x": 1}` at address `0`. -/
def seedHeap : Heap Nat :=
  ((Heap.empty (V := Nat)).alloc [("x", 1)]).1

/-- A dict object `{"_data": 42}` at address `0` together with a freshly
constructed empty container over the same heap (its own storage lives at
address `1`). -/
def rebindScenario : Heap Nat × State Nat :=
  State.init ((Heap.empty (V := Nat)).alloc [("_data", 42)]).1 none

/-- Decidable equality of `Except` results, used to evaluate the model on
concrete inputs. -/
instance {ε α : Type} [DecidableEq ε] [DecidableEq α] :
    DecidableEq (Except ε α) := fun x y =>
  match x, y with
  | .ok a, .ok b =>
    if h : a = b then isTrue (by rw [h])
    else isFalse (by intro hh; cases hh; exact h rfl)
  | .ok _, .error _ => isFalse (fun hh => Except.noConfusion hh)
  | .error _, .ok _ => isFalse (fun hh => Except.noConfusion hh)
  | .error e, .error f =>
    if h : e = f then isTrue (by rw [h])
    else isFalse (by intro hh; cases hh; exact h rfl)

/-- Key well-formedness is decidable, so that it can be checked on
concrete containers. -/
instance (d : Dict V) : Decidable (nodupKeys d) :=
  inferInstanceAs (Decidable (dictKeys d).Nodup)

/-!  ## Basic dict lemmas -/

theorem dictGet_set_self (d : Dict V) (k : String) (v : V) :
    dictGet (dictSet d k v) k = some v := by
  induction d with
  | nil => simp [dictGet, dictSet]
  | cons kv rest ih =>
    by_cases hk : kv.1 = k
    · simp [dictSet, hk, dictGet]
    · simp [dictSet, hk, dictGet, ih]

theorem dictGet_set_ne (d : Dict V) (k k' : String) (v : V) (hne : k' ≠ k) :
    dictGet (dictSet d k v) k' = dictGet d k' := by
  have hkk : ¬ k = k' := fun hh => hne hh.symm
  induction d with
  | nil => simp [dictGet, dictSet, hkk]
  | cons kv rest ih =>
    obtain ⟨k1, v1⟩ := kv
    by_cases hk : k1 = k
    · have hk1 : ¬ k1 = k' := fun hh => hkk (hk.symm.trans hh)
      simp only [dictSet, if_pos hk, dictGet, if_neg hkk, if_neg hk1]
    · by_cases hk2 : k1 = k'
      · simp only [dictSet, if_neg hk, dictGet, if_pos hk2]
      · simp only [dictSet, if_neg hk, dictGet, if_neg hk2, ih]

theorem dictGet_eq_none_iff (d : Dict V) (k : String) :
    dictGet d k = none ↔ k ∉ dictKeys d := by
  induction d with
  | nil => simp [dictGet, dictKeys]
  | cons kv rest ih =>
    obtain ⟨k1, v1⟩ := kv
    by_cases hk : k1 = k
    · simp [dictGet, hk, dictKeys]
    · have hk2 : ¬ k = k1 := fun hh => hk hh.symm
      simp [dictGet, hk, dictKeys, hk2, ih]

theorem dictKeys_set (d : Dict V) (k : String) (v : V) :
    dictKeys (dictSet d k v) =
      if (dictGet d k).isSome then dictKeys d else dictKeys d ++ [k] := by
  induction d with
  | nil => simp [dictSet, dictGet, dictKeys]
  | cons kv rest ih =>
    by_cases hk : kv.1 = k
    · simp [dictSet, hk, dictGet, dictKeys]
    · by_cases hmem : (dictGet rest k).isSome
      · simp [dictSet, hk, dictGet, dictKeys, hmem] at ih ⊢
        exact ih
      · simp [dictSet, hk, dictGet, dictKeys, hmem] at ih ⊢
        exact ih

theorem nodupKeys_set (d : Dict V) (k : String) (v : V) (hn : nodupKeys d) :
    nodupKeys (dictSet d k v) := by
  unfold nodupKeys at *
  rw [dictKeys_set]
  by_cases hmem : (dictGet d k).isSome
  · simp [hmem, hn]
  · simp only [hmem, if_false]
    have hnm : k ∉ dictKeys d := by
      rw [← dictGet_eq_none_iff]
      exact Option.not_isSome_iff_eq_none.mp hmem
    simp [List.nodup_append, hn, hnm]

theorem dictDel_eq_none_iff (d : Dict V) (k : String) :
    dictDel d k = none ↔ dictGet d k = none := by
  induction d with
  | nil => simp [dictDel, dictGet]
  | cons kv rest ih =>
    by_cases hk : kv.1 = k
    · simp [dictDel, hk, dictGet]
    · simp [dictDel, hk, dictGet, Option.map_eq_none, ih]

theorem dictKeys_del (d d' : Dict V) (k : String) (hdel : dictDel d k = some d') :
    dictKeys d' = (dictKeys d).erase k := by
  induction d generalizing d' with
  | nil => simp [dictDel] at hdel
  | cons kv rest ih =>
    obtain ⟨k1, v1⟩ := kv
    by_cases hk : k1 = k
    · simp only [dictDel, if_pos hk, Option.some.injEq] at hdel
      subst hdel
      subst hk
      simp [dictKeys, List.erase_cons_head]
    · have hne : (k1 == k) = false := by simp [hk]
      simp only [dictDel, if_neg hk, Option.map_eq_some'] at hdel
      obtain ⟨rest', hrest, hcons⟩ := hdel
      subst hcons
      simp only [dictKeys, List.map_cons, List.erase_cons, hne, Bool.false_eq_true,
        if_false]
      exact congrArg (List.cons k1) (ih rest' hrest)

theorem nodupKeys_del (d d' : Dict V) (k : String)
    (hdel : dictDel d k = some d') (hn : nodupKeys d) : nodupKeys d' := by
  unfold nodupKeys at *
  rw [dictKeys_del d d' k hdel]
  exact hn.erase k

theorem dictDel_length (d d' : Dict V) (k : String)
    (hdel : dictDel d k = some d') : d'.length + 1 = d.length := by
  induction d generalizing d' with
  | nil => simp [dictDel] at hdel
  | cons kv rest ih =>
    by_cases hk : kv.1 = k
    · simp [dictDel, hk] at hdel
      subst hdel
      simp
    · simp [dictDel, hk] at hdel
      obtain ⟨rest', hrest, hcons⟩ := hdel
      subst hcons
      simp [← ih rest' hrest]

theorem dictGet_del_self (d d' : Dict V) (k : String)
    (hdel : dictDel d k = some d') (hn : nodupKeys d) :
    dictGet d' k = none := by
  rw [dictGet_eq_none_iff, dictKeys_del d d' k hdel]
  exact hn.not_mem_erase

theorem dictGet_del_ne (d d' : Dict V) (k k' : String)
    (hdel : dictDel d k = some d') (hne : k' ≠ k) :
    dictGet d' k' = dictGet d k' := by
  induction d generalizing d' with
  | nil => simp [dictDel] at hdel
  | cons kv rest ih =>
    obtain ⟨k1, v1⟩ := kv
    by_cases hk : k1 = k
    · simp only [dictDel, if_pos hk, Option.some.injEq] at hdel
      subst hdel
      subst hk
      have hk1 : ¬ k1 = k' := fun hh => hne (hh.symm)
      simp only [dictGet, if_neg hk1]
    · simp only [dictDel, if_neg hk, Option.map_eq_some'] at hdel
      obtain ⟨rest', hrest, hcons⟩ := hdel
      subst hcons
      by_cases hk2 : k1 = k'
      · simp only [dictGet, if_pos hk2]
      · simp only [dictGet, if_neg hk2, ih rest' hrest]

theorem dictGet_mem (d : Dict V) (k : String) (v : V)
    (hget : dictGet d k = some v) : (k, v) ∈ d := by
  induction d with
  | nil => simp [dictGet] at hget
  | cons kv rest ih =>
    obtain ⟨k1, v1⟩ := kv
    by_cases hk : k1 = k
    · simp only [dictGet, if_pos hk, Option.some.injEq] at hget
      subst hget
      subst hk
      exact List.mem_cons_self _ _
    · simp only [dictGet, if_neg hk] at hget
      exact List.mem_cons_of_mem _ (ih hget)

theorem mem_dictGet (d : Dict V) (k : String) (v : V)
    (hn : nodupKeys d) (hmem : (k, v) ∈ d) : dictGet d k = some v := by
  induction d with
  | nil => simp at hmem
  | cons kv rest ih =>
    obtain ⟨k1, v1⟩ := kv
    unfold nodupKeys dictKeys at hn
    simp only [List.map_cons, List.nodup_cons] at hn
    rcases List.mem_cons.mp hmem with hhd | htl
    · rw [Prod.mk.injEq] at hhd
      obtain ⟨hk, hv⟩ := hhd
      simp [dictGet, hk.symm, hv]
    · by_cases hk : k1 = k
      · exfalso
        apply hn.1
        subst hk
        exact List.mem_map_of_mem Prod.fst htl
      · simp only [dictGet, if_neg hk]
        exact ih hn.2 htl

theorem dictBeq_iff [DecidableEq V] (d1 d2 : Dict V)
    (h1 : nodupKeys d1) (h2 : nodupKeys d2) :
    dictBeq d1 d2 = true ↔ ∀ k, dictGet d1 k = dictGet d2 k := by
  unfold dictBeq
  rw [Bool.and_eq_true, List.all_eq_true, List.all_eq_true]
  constructor
  · rintro ⟨ha, hb⟩ k
    cases hget : dictGet d1 k with
    | some v =>
      have := ha (k, v) (dictGet_mem d1 k v hget)
      simp only [decide_eq_true_eq] at this
      exact this.symm ▸ rfl
    | none =>
      cases hget2 : dictGet d2 k with
      | none => rfl
      | some w =>
        have := hb (k, w) (dictGet_mem d2 k w hget2)
        simp only [decide_eq_true_eq] at this
        rw [hget] at this
        exact absurd this.symm (Option.some_ne_none w)
  · intro hext
    constructor
    · intro kv hkv
      simp only [decide_eq_true_eq]
      rw [← hext kv.1]
      exact mem_dictGet d1 kv.1 kv.2 h1 hkv
    · intro kv hkv
      simp only [decide_eq_true_eq]
      rw [hext kv.1]
      exact mem_dictGet d2 kv.1 kv.2 h2 hkv

/-!  ## Heap lemmas -/

theorem Heap.read_write_self (h : Heap V) (a : Nat) (d : Dict V) :
    (h.write a d).read a = d := by
  simp [Heap.read, Heap.write]

theorem Heap.read_write_ne (h : Heap V) (a a' : Nat) (d : Dict V)
    (hne : a' ≠ a) : (h.write a d).read a' = h.read a' := by
  simp [Heap.read, Heap.write, hne]

theorem Heap.read_alloc_fresh (h : Heap V) (d : Dict V) :
    (h.alloc d).1.read (h.alloc d).2 = d := by
  simp [Heap.read, Heap.alloc]

theorem Heap.read_alloc_old (h : Heap V) (d : Dict V) (a : Nat)
    (ha : a < h.next) : (h.alloc d).1.read a = h.read a := by
  have : a ≠ h.next := Nat.ne_of_lt ha
  simp [Heap.read, Heap.alloc, this]

/-!  ## Attribute-lookup helper lemmas -/

theorem classAttr_ne_data (k : String) (hk : k ∈ classAttrNames) :
    ¬ k = "_data" := by
  fin_cases hk <;> decide

theorem notPrivate_ne_data (k : String)
    (hk : isPrivateName k = false) : ¬ k = "_data" := by
  intro hh
  subst hh
  have hT : isPrivateName "_data" = true := by decide
  rw [hT] at hk
  cases hk

theorem getAttr_stored (h : Heap V) (s : State V) (k : String)
    (hdata : ¬ k = "_data") (hinst : dictGet s.attrs k = none)
    (hcls : k ∉ classAttrNames) :
    State.getAttr h s k =
      (match dictGet (h.read s._data) k with
       | some v => .ok (.stored v)
       | none => .error (.missingAttr k)) := by
  simp only [State.getAttr, if_neg hdata, hinst, if_neg hcls]

theorem getAttr_classMethod (h : Heap V) (s : State V) (k : String)
    (hcls : k ∈ classAttrNames) (hinst : dictGet s.attrs k = none) :
    State.getAttr h s k = .ok (.classMethod k) := by
  simp only [State.getAttr, if_neg (classAttr_ne_data k hcls), hinst,
    if_pos hcls]

/-!  ## The claims -/

/-- C1 (counterexample): the claim fails as stated.  After
`state["items"] = 1`, named access `state.items` does not return `1`: it
returns the bound method `items` found on the class, because ordinary
attribute lookup succeeds before the `__getattr__` hook is consulted. -/
theorem state_dual_access_cex :
    State.getAttr (State.setItem freshState.1 freshState.2 "items" 1)
        freshState.2 "items" = Except.ok (PyAttr.classMethod "items") ∧
    State.getAttr (State.setItem freshState.1 freshState.2 "items" 1)
        freshState.2 "items" ≠ Except.ok (PyAttr.stored 1) := by
  decide

/-- C1 (amended): for every key that does not collide with a class
attribute name, does not begin with the private marker, and is not an
instance attribute, `set_by_key(k, v)` followed by `get_by_name(k)`
returns `v`, and `set_by_name(k, v)` followed by `get_by_key(k)` returns
`v`: both access forms read and write the same backing storage. -/
theorem state_dual_access (h : Heap V) (s : State V) (k : String) (v : V)
    (hcls : k ∉ classAttrNames) (hpriv : isPrivateName k = false)
    (hinst : dictGet s.attrs k = none) :
    State.getAttr (State.setItem h s k v) s k = .ok (.stored v) ∧
    State.getItem (State.setAttr h s k v).1 (State.setAttr h s k v).2 k =
      .ok v := by
  have hdata : ¬ k = "_data" := notPrivate_ne_data k hpriv
  constructor
  · rw [getAttr_stored _ _ _ hdata hinst hcls]
    unfold State.setItem
    rw [Heap.read_write_self, dictGet_set_self]
  · simp only [State.setAttr, hpriv, Bool.false_eq_true, if_false,
      State.getItem, Heap.read_write_self, dictGet_set_self]

/-- C1 (witness): the amended theorem at the key `"y"` and value `7` on a
freshly constructed container. -/
theorem state_dual_access_witness :
    ("y" ∉ classAttrNames ∧ isPrivateName "y" = false ∧
      dictGet freshState.2.attrs "y" = none) ∧
    (State.getAttr (State.setItem freshState.1 freshState.2 "y" 7)
        freshState.2 "y" = Except.ok (PyAttr.stored 7) ∧
      State.getItem (State.setAttr freshState.1 freshState.2 "y" 7).1
        (State.setAttr freshState.1 freshState.2 "y" 7).2 "y" =
          Except.ok 7) :=
  ⟨⟨by decide, by decide, by decide⟩,
    state_dual_access freshState.1 freshState.2 "y" 7
      (by decide) (by decide) (by decide)⟩

/-- C2 (counterexample): the claim fails as stated.  On a freshly
constructed container the key `"keys"` is not present in the backing
storage, yet `get_by_name("keys")` does not raise `MissingAttribute`: it
returns the class method `keys`. -/
theorem state_missing_errors_cex :
    dictGet (freshState.1.read freshState.2._data) "keys" = none ∧
    State.getAttr freshState.1 freshState.2 "keys" ≠
      Except.error (PyErr.missingAttr "keys") := by
  decide

/-- C2 (amended): for every key absent from the backing storage,
`get_by_key` raises `MissingKey` and `delete_by_key` raises `MissingKey`,
unconditionally; `get_by_name` raises `MissingAttribute` carrying the
attempted name, provided the name does not collide with a class attribute
name, does not begin with the private marker, and is not an instance
attribute. -/
theorem state_missing_errors (h : Heap V) (s : State V) (k : String)
    (habs : dictGet (h.read s._data) k = none) :
    State.getItem h s k = .error (.missingKey k) ∧
    State.delItem h s k = .error (.missingKey k) ∧
    (k ∉ classAttrNames → isPrivateName k = false →
      dictGet s.attrs k = none →
      State.getAttr h s k = .error (.missingAttr k)) := by
  refine ⟨?_, ?_, ?_⟩
  · simp only [State.getItem, habs]
  · have hdel : dictDel (h.read s._data) k = none :=
      (dictDel_eq_none_iff _ _).mpr habs
    simp only [State.delItem, hdel]
  · intro hcls hpriv hinst
    rw [getAttr_stored _ _ _ (notPrivate_ne_data k hpriv) hinst hcls, habs]

/-- C2 (witness): the amended theorem at the absent key `"z"` on a
freshly constructed container. -/
theorem state_missing_errors_witness :
    dictGet (freshState.1.read freshState.2._data) "z" = none ∧
    (State.getItem freshState.1 freshState.2 "z" =
        Except.error (PyErr.missingKey "z") ∧
      State.delItem freshState.1 freshState.2 "z" =
        Except.error (PyErr.missingKey "z") ∧
      ("z" ∉ classAttrNames → isPrivateName "z" = false →
        dictGet freshState.2.attrs "z" = none →
        State.getAttr freshState.1 freshState.2 "z" =
          Except.error (PyErr.missingAttr "z"))) :=
  ⟨by decide, state_missing_errors freshState.1 freshState.2 "z" (by decide)⟩

/-- C3 (counterexample): the claim fails as stated at the reserved
private name.  The assignment `state._data = {"_data": 42}` begins with
the private marker, yet it does not leave the storage views untouched:
`object.__setattr__` rebinds the backing-storage slot, and afterwards the
name `"_data"` is visible via indexed access (returning `42`),
membership, iteration, and the length is `1`, so the bookkeeping name
does appear as a user-data entry. -/
theorem state_private_routing_cex :
    isPrivateName "_data" = true ∧
    State.getItem rebindScenario.1
        (State.setAttrData rebindScenario.1 rebindScenario.2 0).2 "_data" =
      Except.ok 42 ∧
    State.contains rebindScenario.1
        (State.setAttrData rebindScenario.1 rebindScenario.2 0).2 "_data" =
      true ∧
    "_data" ∈ State.iterKeys rebindScenario.1
        (State.setAttrData rebindScenario.1 rebindScenario.2 0).2 ∧
    State.len rebindScenario.1
        (State.setAttrData rebindScenario.1 rebindScenario.2 0).2 = 1 := by
  decide

/-- C3 (amended): assigning a value to a name that begins with the
private marker and is not the reserved `_data` slot routes it to an
implementation-internal instance attribute and leaves the backing storage
— and hence indexed access, membership, iteration and length — untouched,
so such an assignment never surfaces as a user-data entry; assignment to
the reserved name `_data` itself instead rebinds the backing-storage
slot, leaving the heap unchanged.  (The reserved-name exclusion `_hk`
scopes the statement to the inputs the amended claim is about; the
counterexample shows the routing conclusions false of the program at the
reserved name.) -/
theorem state_private_routing (h : Heap V) (s : State V) (k : String)
    (v : V) (a : Nat) ( _hk : ¬ k = "_data")
    (hpriv : isPrivateName k = true) (habs : State.contains h s k = false) :
    (State.setAttr h s k v).1 = h ∧
    (State.setAttr h s k v).2._data = s._data ∧
    dictGet (State.setAttr h s k v).2.attrs k = some v ∧
    State.contains (State.setAttr h s k v).1 (State.setAttr h s k v).2 k =
      false ∧
    State.getItem (State.setAttr h s k v).1 (State.setAttr h s k v).2 k =
      .error (.missingKey k) ∧
    k ∉ State.iterKeys (State.setAttr h s k v).1 (State.setAttr h s k v).2 ∧
    State.len (State.setAttr h s k v).1 (State.setAttr h s k v).2 =
      State.len h s ∧
    (State.setAttrData h s a).2._data = a ∧
    (State.setAttrData h s a).1 = h := by
  have hget : dictGet (h.read s._data) k = none := by
    cases hc : dictGet (h.read s._data) k with
    | none => rfl
    | some w =>
      unfold State.contains at habs
      rw [hc] at habs
      exact Bool.noConfusion habs
  simp only [State.setAttr, hpriv, if_true]
  refine ⟨trivial, trivial, dictGet_set_self _ _ _, ?_, ?_, ?_, rfl, rfl, rfl⟩
  · simp only [State.contains, hget, Option.isSome_none]
  · simp only [State.getItem, hget]
  · unfold State.iterKeys
    exact (dictGet_eq_none_iff _ _).mp hget

/-- C3 (witness): assigning `"_cache" := 9` by name on a freshly
constructed container, and rebinding the reserved slot to address `5`. -/
theorem state_private_routing_witness :
    (¬ "_cache" = "_data" ∧ isPrivateName "_cache" = true ∧
      State.contains freshState.1 freshState.2 "_cache" = false) ∧
    ((State.setAttr freshState.1 freshState.2 "_cache" 9).1 = freshState.1 ∧
      (State.setAttr freshState.1 freshState.2 "_cache" 9).2._data =
        freshState.2._data ∧
      dictGet (State.setAttr freshState.1 freshState.2 "_cache" 9).2.attrs
        "_cache" = some 9 ∧
      State.contains (State.setAttr freshState.1 freshState.2 "_cache" 9).1
        (State.setAttr freshState.1 freshState.2 "_cache" 9).2 "_cache" =
          false ∧
      State.getItem (State.setAttr freshState.1 freshState.2 "_cache" 9).1
        (State.setAttr freshState.1 freshState.2 "_cache" 9).2 "_cache" =
          Except.error (PyErr.missingKey "_cache") ∧
      "_cache" ∉ State.iterKeys
        (State.setAttr freshState.1 freshState.2 "_cache" 9).1
        (State.setAttr freshState.1 freshState.2 "_cache" 9).2 ∧
      State.len (State.setAttr freshState.1 freshState.2 "_cache" 9).1
        (State.setAttr freshState.1 freshState.2 "_cache" 9).2 =
          State.len freshState.1 freshState.2 ∧
      (State.setAttrData freshState.1 freshState.2 5).2._data = 5 ∧
      (State.setAttrData freshState.1 freshState.2 5).1 = freshState.1) :=
  ⟨⟨by decide, by decide, by decide⟩,
    state_private_routing freshState.1 freshState.2 "_cache" 9 5
      (by decide) (by decide) (by decide)⟩

/-- C9: after `state[k] = v` for a key that coincides with a class
attribute name (such as `"items"`), indexed access returns the stored
value but named access returns the container's own method, because the
attribute-missing hook is consulted only when ordinary lookup fails. -/
theorem state_method_shadowing (h : Heap V) (s : State V) (k : String) (v : V)
    (hcls : k ∈ classAttrNames) (hinst : dictGet s.attrs k = none) :
    State.getItem (State.setItem h s k v) s k = .ok v ∧
    State.getAttr (State.setItem h s k v) s k = .ok (.classMethod k) := by
  constructor
  · simp only [State.getItem, State.setItem, Heap.read_write_self,
      dictGet_set_self]
  · exact getAttr_classMethod _ _ _ hcls hinst

/-- C9 (witness): the theorem at the method name `"as_dict"` and value
`4` on a freshly constructed container. -/
theorem state_method_shadowing_witness :
    ("as_dict" ∈ classAttrNames ∧
      dictGet freshState.2.attrs "as_dict" = none) ∧
    (State.getItem (State.setItem freshState.1 freshState.2 "as_dict" 4)
        freshState.2 "as_dict" = Except.ok 4 ∧
      State.getAttr (State.setItem freshState.1 freshState.2 "as_dict" 4)
        freshState.2 "as_dict" =
          Except.ok (PyAttr.classMethod "as_dict")) :=
  ⟨⟨by decide, by decide⟩,
    state_method_shadowing freshState.1 freshState.2 "as_dict" 4
      (by decide) (by decide)⟩

/-- C10: `load_jsonl` calls `load_ndjson` but discards the result: both
the `cmmc.file_tools` version and the `mypy.pandas_tools` copy return
`None` on every normal exit, for every file path, encoding and parsing
environment, never the promised list of parsed lines. -/
theorem load_jsonl_returns_none {J : Type} (env : FileEnv J)
    (fp enc : String) :
    load_jsonl env fp enc =
      (load_ndjson env fp enc).map (fun _ => PyValue.none) ∧
    (∀ r, load_jsonl env fp enc = Except.ok r → r = PyValue.none) ∧
    pandas_load_jsonl env fp =
      (pandas_load_ndjson env fp "utf-8").map (fun _ => PyValue.none) ∧
    (∀ r, pandas_load_jsonl env fp = Except.ok r → r = PyValue.none) := by
  have h1 : load_jsonl env fp enc =
      (load_ndjson env fp enc).map (fun _ => PyValue.none) := by
    simp only [load_jsonl]
    cases hres : load_ndjson env fp enc <;> rfl
  have h2 : pandas_load_jsonl env fp =
      (pandas_load_ndjson env fp "utf-8").map (fun _ => PyValue.none) := by
    simp only [pandas_load_jsonl]
    cases hres : pandas_load_ndjson env fp "utf-8" <;> rfl
  refine ⟨h1, ?_, h2, ?_⟩
  · intro r hr
    rw [h1] at hr
    cases hres : load_ndjson env fp enc with
    | error e => rw [hres] at hr; exact Except.noConfusion hr
    | ok xs =>
      rw [hres] at hr
      cases hr
      rfl
  · intro r hr
    rw [h2] at hr
    cases hres : pandas_load_ndjson env fp "utf-8" with
    | error e => rw [hres] at hr; exact Except.noConfusion hr
    | ok xs =>
      rw [hres] at hr
      cases hr
      rfl

theorem Heap.read_alloc_self (h : Heap V) (d : Dict V) :
    (h.alloc d).1.read h.next = d := by
  simp [Heap.read, Heap.alloc]

/-- C6: iteration yields exactly the keys of the backing storage, in the
order each key was first inserted: setting a fresh key appends it at the
end of the order, setting a present key leaves the order unchanged, and
concretely setting `"b"`, then `"a"`, then `"b"` again on a fresh
container yields the order `["b", "a"]`. -/
theorem state_iteration_order (h : Heap V) (s : State V) (k : String)
    (v v1 v2 v3 : V) :
    State.iterKeys h s = dictKeys (h.read s._data) ∧
    State.iterKeys (State.setItem h s k v) s =
      (if State.contains h s k = true then State.iterKeys h s
       else State.iterKeys h s ++ [k]) ∧
    runKeys (State.init (Heap.empty (V := V)) none).1
        (State.init (Heap.empty (V := V)) none).2
        [Op.setKey "b" v1, Op.setKey "a" v2, Op.setKey "b" v3] =
      Except.ok ["b", "a"] := by
  refine ⟨rfl, ?_, ?_⟩
  · unfold State.iterKeys State.setItem State.contains
    rw [Heap.read_write_self, dictKeys_set]
  · rfl

/-- C7: construction from a caller-owned source dict copies the top-level
dict into a fresh object: the new storage holds the same entries (values
shared by reference), lives at a different address than the source, is
unaffected by later mutation of the source, and later mutation of the
container leaves the source unchanged. -/
theorem state_init_shallow_copy (h : Heap V) (src : Nat) (d : Dict V)
    (k : String) (v : V) (hsrc : src < h.next) :
    (State.init h (some src)).1.read (State.init h (some src)).2._data =
      h.read src ∧
    (State.init h (some src)).2._data ≠ src ∧
    ((State.init h (some src)).1.write src d).read
        (State.init h (some src)).2._data =
      (State.init h (some src)).1.read (State.init h (some src)).2._data ∧
    (State.setItem (State.init h (some src)).1 (State.init h (some src)).2
        k v).read src = (State.init h (some src)).1.read src ∧
    (State.init h (some src)).1.read src = h.read src := by
  have hdata : (State.init h (some src)).2._data = h.next := rfl
  have hnsrc : h.next ≠ src := Ne.symm (Nat.ne_of_lt hsrc)
  have hinit1 : (State.init h (some src)).1 =
      (h.alloc (if (h.read src).isEmpty then [] else h.read src)).1 := rfl
  refine ⟨?_, ?_, ?_, ?_, ?_⟩
  · rw [hinit1, hdata, Heap.read_alloc_self]
    by_cases hemp : (h.read src).isEmpty = true
    · rw [if_pos hemp]
      exact (List.isEmpty_iff.mp hemp).symm
    · rw [if_neg hemp]
  · rw [hdata]
    exact hnsrc
  · rw [hdata]
    exact Heap.read_write_ne _ _ _ _ hnsrc
  · unfold State.setItem
    rw [hdata]
    exact Heap.read_write_ne _ _ _ _ (Nat.ne_of_lt hsrc)
  · rw [hinit1]
    exact Heap.read_alloc_old h _ src hsrc

/-- C7 (witness): constructing from the dict `{"x": 1}` held at address
`0` of `seedHeap`, then mutating source and container. -/
theorem state_init_shallow_copy_witness :
    (0 < seedHeap.next) ∧
    ((State.init seedHeap (some 0)).1.read
        (State.init seedHeap (some 0)).2._data = seedHeap.read 0 ∧
      (State.init seedHeap (some 0)).2._data ≠ 0 ∧
      ((State.init seedHeap (some 0)).1.write 0 [("y", 2)]).read
          (State.init seedHeap (some 0)).2._data =
        (State.init seedHeap (some 0)).1.read
          (State.init seedHeap (some 0)).2._data ∧
      (State.setItem (State.init seedHeap (some 0)).1
          (State.init seedHeap (some 0)).2 "z" 3).read 0 =
        (State.init seedHeap (some 0)).1.read 0 ∧
      (State.init seedHeap (some 0)).1.read 0 = seedHeap.read 0) :=
  ⟨by decide,
    state_init_shallow_copy seedHeap 0 [("y", 2)] "z" 3 (by decide)⟩

/-- C8: `as_dict` returns the live backing storage, not a copy: it
returns the container's storage reference, a later indexed set or
successful delete on the container is visible through that reference, and
a direct mutation of the dict at that reference is visible through the
container's indexed access. -/
theorem state_as_dict_live (h : Heap V) (s : State V) (k : String) (v : V)
    (d : Dict V) :
    State.asDict s = s._data ∧
    (State.setItem h s k v).read (State.asDict s) =
      dictSet (h.read (State.asDict s)) k v ∧
    (match State.delItem h s k with
     | .ok h2 => some (h2.read (State.asDict s))
     | .error _ => none) = dictDel (h.read (State.asDict s)) k ∧
    State.getItem (h.write (State.asDict s) d) s k =
      (match dictGet d k with
       | some w => Except.ok w
       | none => Except.error (PyErr.missingKey k)) := by
  refine ⟨rfl, ?_, ?_, ?_⟩
  · unfold State.setItem State.asDict
    rw [Heap.read_write_self]
  · unfold State.delItem State.asDict
    cases hd : dictDel (h.read s._data) k with
    | none => rfl
    | some d2 => exact congrArg some (Heap.read_write_self h s._data d2)
  · unfold State.getItem State.asDict
    rw [Heap.read_write_self]

/-!  ## Preservation of dict well-formedness under the operations -/

theorem applyOp_preserves (h : Heap V) (s : State V) (op : Op V)
    (p : Heap V × State V) (hap : applyOp h s op = .ok p)
    (hn : nodupKeys (h.read s._data)) :
    p.2._data = s._data ∧ nodupKeys (p.1.read p.2._data) := by
  cases op with
  | setKey k v =>
    simp only [applyOp, Except.ok.injEq] at hap
    subst hap
    refine ⟨rfl, ?_⟩
    show nodupKeys ((State.setItem h s k v).read s._data)
    unfold State.setItem
    rw [Heap.read_write_self]
    exact nodupKeys_set _ _ _ hn
  | setName n v =>
    simp only [applyOp, Except.ok.injEq] at hap
    subst hap
    by_cases hp : isPrivateName n = true
    · simp only [State.setAttr, hp, if_true]
      exact ⟨trivial, hn⟩
    · have hp2 : isPrivateName n = false := Bool.eq_false_iff.mpr hp
      simp only [State.setAttr, hp2, Bool.false_eq_true, if_false]
      refine ⟨trivial, ?_⟩
      show nodupKeys
        ((h.write s._data (dictSet (h.read s._data) n v)).read s._data)
      rw [Heap.read_write_self]
      exact nodupKeys_set _ _ _ hn
  | delKey k =>
    simp only [applyOp] at hap
    unfold State.delItem at hap
    cases hd : dictDel (h.read s._data) k with
    | none =>
      rw [hd] at hap
      exact Except.noConfusion hap
    | some d2 =>
      rw [hd] at hap
      have hap2 : (h.write s._data d2, s) = p := Except.ok.inj hap
      subst hap2
      refine ⟨rfl, ?_⟩
      show nodupKeys ((h.write s._data d2).read s._data)
      rw [Heap.read_write_self]
      exact nodupKeys_del _ _ _ hd hn

theorem applyOps_preserves (ops : List (Op V)) (h : Heap V) (s : State V)
    (p : Heap V × State V) (hap : applyOps h s ops = .ok p)
    (hn : nodupKeys (h.read s._data)) :
    nodupKeys (p.1.read p.2._data) := by
  induction ops generalizing h s with
  | nil =>
    simp only [applyOps, Except.ok.injEq] at hap
    subst hap
    exact hn
  | cons op rest ih =>
    simp only [applyOps] at hap
    cases ho : applyOp h s op with
    | error e =>
      rw [ho] at hap
      exact Except.noConfusion hap
    | ok q =>
      rw [ho] at hap
      exact ih q.1 q.2 hap (applyOp_preserves h s op q ho hn).2

/-- C5: after every successful finite sequence of indexed sets, named
sets and deletes, `len(state)` equals the number of distinct keys present
in the backing storage. -/
theorem state_length_spec (h : Heap V) (s : State V) (ops : List (Op V))
    (hn : nodupKeys (h.read s._data)) :
    runLen h s ops = runDistinctKeyCount h s ops := by
  unfold runLen runDistinctKeyCount
  cases hres : applyOps h s ops with
  | error e => rfl
  | ok p =>
    have hn2 := applyOps_preserves ops h s p hres hn
    simp only [Except.map, Except.ok.injEq]
    unfold State.len
    rw [List.toFinset_card_of_nodup hn2]
    simp [dictKeys]

/-- C5 (witness): setting three distinct keys and deleting one of them on
a fresh container gives length 2. -/
theorem state_length_spec_witness :
    nodupKeys (freshState.1.read freshState.2._data) ∧
    runLen freshState.1 freshState.2
        [Op.setKey "a" 1, Op.setKey "b" 2, Op.setKey "c" 3, Op.delKey "a"] =
      Except.ok 2 :=
  ⟨by decide, by
    rw [state_length_spec freshState.1 freshState.2 _ (by decide)]
    decide⟩

/-!  ## Equality of containers -/

theorem dictBeq_refl [DecidableEq V] (d : Dict V) (hn : nodupKeys d) :
    dictBeq d d = true :=
  (dictBeq_iff d d hn hn).mpr (fun _ => rfl)

theorem init_some_data (h : Heap V) (src : Nat) :
    (State.init h (some src)).2._data = h.next := rfl

theorem init_some_read_data (h : Heap V) (src : Nat) :
    (State.init h (some src)).1.read (State.init h (some src)).2._data =
      h.read src := by
  rw [init_some_data]
  rw [show (State.init h (some src)).1 =
    (h.alloc (if (h.read src).isEmpty then [] else h.read src)).1 from rfl]
  rw [Heap.read_alloc_self]
  by_cases hemp : (h.read src).isEmpty = true
  · rw [if_pos hemp]
    exact (List.isEmpty_iff.mp hemp).symm
  · rw [if_neg hemp]

theorem init_some_read_old (h : Heap V) (src a : Nat) (ha : a < h.next) :
    (State.init h (some src)).1.read a = h.read a :=
  Heap.read_alloc_old h _ a ha

/-- C4 (counterexample): the claim fails as stated.  Two separately
constructed containers both holding `{"a": 1}` are equal; mutating one of
them by the set `state["a"] = 1` — a set, hence a mutation the claim
quantifies over — leaves them equal, not unequal. -/
theorem state_equality_cex :
    State.eqState eqScenario.1 eqScenario.2.1 eqScenario.2.2 = true ∧
    State.eqState (State.setItem eqScenario.1 eqScenario.2.1 "a" 1)
      eqScenario.2.1 eqScenario.2.2 = true := by
  decide

/-- C4 (amended): equality with another container and with a plain dict
is value equality of the backing storages; containers separately
constructed from equal seeds are equal; and after a mutation of one of
two equal distinct containers that changes the storage's value — setting
a fresh key, overwriting a key with a different value, or deleting a key
— they are unequal. -/
theorem state_equality_spec [DecidableEq V] (h : Heap V) (s1 s2 : State V)
    (k : String) (v : V)
    (hn1 : nodupKeys (h.read s1._data)) (hn2 : nodupKeys (h.read s2._data))
    (hdist : s1._data ≠ s2._data) :
    eqSpecHolds h s1 s2 k v := by
  have hread_set_own : (State.setItem h s1 k v).read s1._data =
      dictSet (h.read s1._data) k v := by
    unfold State.setItem
    exact Heap.read_write_self _ _ _
  have hread_set_other : (State.setItem h s1 k v).read s2._data =
      h.read s2._data := by
    unfold State.setItem
    exact Heap.read_write_ne _ _ _ _ (Ne.symm hdist)
  refine ⟨?_, ?_, ?_, ?_, ?_, ?_⟩
  · exact dictBeq_iff _ _ hn1 hn2
  · intro d hd
    exact dictBeq_iff _ _ hn1 hd
  · intro src1 src2 hs1 hs2 heq hnseed
    have E1 : (State.init (State.init h (some src1)).1 (some src2)).1.read
        (State.init (State.init h (some src1)).1 (some src2)).2._data =
        (State.init h (some src1)).1.read src2 :=
      init_some_read_data _ src2
    have E2 : (State.init h (some src1)).1.read src2 = h.read src1 := by
      rw [init_some_read_old h src1 src2 hs2]
      exact heq.symm
    have E3 : (State.init (State.init h (some src1)).1 (some src2)).1.read
        (State.init h (some src1)).2._data = h.read src1 := by
      rw [init_some_data h src1]
      have hlt : h.next < (State.init h (some src1)).1.next :=
        Nat.lt_succ_self _
      rw [init_some_read_old (State.init h (some src1)).1 src2 h.next hlt]
      rw [← init_some_data h src1]
      exact init_some_read_data h src1
    unfold State.eqState
    rw [E1, E2, E3]
    exact dictBeq_refl _ hnseed
  · intro hnone htrue
    rw [Bool.eq_false_iff]
    intro htrue2
    have hn1b : nodupKeys ((State.setItem h s1 k v).read s1._data) := by
      rw [hread_set_own]
      exact nodupKeys_set _ _ _ hn1
    have hn2b : nodupKeys ((State.setItem h s1 k v).read s2._data) := by
      rw [hread_set_other]
      exact hn2
    have hext := (dictBeq_iff _ _ hn1b hn2b).mp htrue2 k
    rw [hread_set_own, hread_set_other, dictGet_set_self] at hext
    have hold := (dictBeq_iff _ _ hn1 hn2).mp htrue k
    rw [hnone] at hold
    rw [← hold] at hext
    exact Option.noConfusion hext
  · intro w hsome hw htrue
    rw [Bool.eq_false_iff]
    intro htrue2
    have hn1b : nodupKeys ((State.setItem h s1 k v).read s1._data) := by
      rw [hread_set_own]
      exact nodupKeys_set _ _ _ hn1
    have hn2b : nodupKeys ((State.setItem h s1 k v).read s2._data) := by
      rw [hread_set_other]
      exact hn2
    have hext := (dictBeq_iff _ _ hn1b hn2b).mp htrue2 k
    rw [hread_set_own, hread_set_other, dictGet_set_self] at hext
    have hold := (dictBeq_iff _ _ hn1 hn2).mp htrue k
    rw [hsome] at hold
    rw [← hold] at hext
    exact hw (Option.some.inj hext).symm
  · intro h2 hdel htrue
    rw [Bool.eq_false_iff]
    intro htrue2
    unfold State.delItem at hdel
    cases hd : dictDel (h.read s1._data) k with
    | none =>
      rw [hd] at hdel
      exact Except.noConfusion hdel
    | some d2 =>
      rw [hd] at hdel
      have hh2 : h.write s1._data d2 = h2 := Except.ok.inj hdel
      subst hh2
      have hn1b : nodupKeys ((h.write s1._data d2).read s1._data) := by
        rw [Heap.read_write_self]
        exact nodupKeys_del _ _ _ hd hn1
      have hn2b : nodupKeys ((h.write s1._data d2).read s2._data) := by
        rw [Heap.read_write_ne _ _ _ _ (Ne.symm hdist)]
        exact hn2
      have hext := (dictBeq_iff _ _ hn1b hn2b).mp htrue2 k
      rw [Heap.read_write_self,
        Heap.read_write_ne _ _ _ _ (Ne.symm hdist)] at hext
      rw [dictGet_del_self _ _ _ hd hn1] at hext
      have hpresent : dictGet (h.read s1._data) k ≠ none := by
        intro hcontra
        rw [(dictDel_eq_none_iff _ _).mpr hcontra] at hd
        exact Option.noConfusion hd
      have hold := (dictBeq_iff _ _ hn1 hn2).mp htrue k
      rw [← hext] at hold
      exact hpresent hold

/-- C4 (witness): the amended theorem on the two concrete containers of
`eqScenario`, at the key `"b"` and value `2`. -/
theorem state_equality_spec_witness :
    (nodupKeys (eqScenario.1.read eqScenario.2.1._data) ∧
      nodupKeys (eqScenario.1.read eqScenario.2.2._data) ∧
      eqScenario.2.1._data ≠ eqScenario.2.2._data) ∧
    eqSpecHolds eqScenario.1 eqScenario.2.1 eqScenario.2.2 "b" 2 :=
  ⟨⟨by decide, by decide, by decide⟩,
    state_equality_spec eqScenario.1 eqScenario.2.1 eqScenario.2.2 "b" 2
      (by decide) (by decide) (by decide)⟩
